import Mathlib

/-!
Verification of the snapshot lifecycle script `makesnapshots.py`
(aws-snapshot-tool). The script takes a period token on the command line,
creates a snapshot per tagged volume, mirrors the volume tags onto the new
snapshot, classifies the volume's existing snapshots by description prefix,
and deletes the oldest ones beyond a configured keep-count. The definitions
below are a shallow embedding of the script's pure logic; provider API calls
are modelled by explicit failure flags on the per-volume environment.
-/

namespace MakeSnapshots

/-- Prefix test on strings, modelling Python's `str.startswith`. -/
def strStartsWith (p s : String) : Bool :=
  p.data.isPrefixOf s.data

/-- Contiguous-sublist test on character lists. -/
def isSubstring (sub : List Char) : List Char → Bool
  | [] => sub.isEmpty
  | c :: rest => sub.isPrefixOf (c :: rest) || isSubstring sub rest

/-- Substring test, modelling Python's `in` operator on strings. -/
def strContains (sub s : String) : Bool :=
  isSubstring sub.data s.data

/-- The fixed marker substring that the script embeds in every description it
creates (line 144 of the source). -/
def marker : String := "taken by the snapshot script"

/-- Frequency label from the period token (line 45 of the source):
`'daily' if args.period == 'day' else args.period + 'ly'`. -/
def frequency (period : String) : String :=
  if period == "day" then "daily" else period ++ "ly"

/-- Description built for a newly created snapshot (lines 144-148 of the
source): `'%(frequency)s snapshot for %(vol_id)s taken by the snapshot script
at %(timestamp)s'`. -/
def makeDescription (period volId timestamp : String) : String :=
  frequency period ++ " snapshot for " ++ volId ++
    " taken by the snapshot script at " ++ timestamp

/-- A snapshot as the script observes it: identifier, free-text description
and creation timestamp (modelled as a Nat; only its order matters). -/
structure Snapshot where
  snapId : String
  description : String
  start_time : Nat
deriving DecidableEq, Repr

/-- Classification of a snapshot into the run's deletion-candidate list,
translated branch by branch from the `for snap in snapshots` chain at lines
160-170 of the source. Note the third branch keeps Python's operator
precedence: `startswith('day') or (startswith('daily') and period == 'day')`. -/
def classifyAdds (period : String) (desc : String) : Bool :=
  if strStartsWith "hour" desc && (period == "hour") then true
  else if strStartsWith "week" desc && (period == "week") then true
  else if strStartsWith "day" desc || (strStartsWith "daily" desc && (period == "day")) then true
  else if strStartsWith "month" desc && (period == "month") then true
  else false

/-- The deletelist built from a volume's snapshots (lines 159-170). -/
def buildDeletelist (period : String) (snaps : List Snapshot) : List Snapshot :=
  snaps.filter (fun s => classifyAdds period s.description)

/-- Comparison used for `deletelist.sort(key=lambda snap: snap.start_time)`
(line 173). -/
def byStart (a b : Snapshot) : Prop := a.start_time ≤ b.start_time

instance : DecidableRel byStart := fun a b => Nat.decLe a.start_time b.start_time

instance : IsTotal Snapshot byStart := ⟨fun a b => Nat.le_total a.start_time b.start_time⟩

instance : IsTrans Snapshot byStart := ⟨fun _ _ _ h h2 => Nat.le_trans h h2⟩

/-- Stable sort of the deletelist by snapshot start time (line 173). -/
def sortSnaps (l : List Snapshot) : List Snapshot :=
  l.insertionSort byStart

/-- Retention cut (lines 182-183): `delta = len(deletelist) - keep;
deletelist = deletelist[:delta] if delta > 0 else []`, applied to the sorted
list. `keep` is the integer from the config. -/
def selectForDeletion (keep : Int) (deletelist : List Snapshot) : List Snapshot :=
  let sorted := sortSnaps deletelist
  let delta : Int := (sorted.length : Int) - keep
  if delta > 0 then sorted.take delta.toNat else []

/-- The period-matching snapshots that remain on the volume after the
selected ones are deleted: the sorted list minus the selected prefix. -/
def remainingAfter (keep : Int) (deletelist : List Snapshot) : List Snapshot :=
  let sorted := sortSnaps deletelist
  let delta : Int := (sorted.length : Int) - keep
  if delta > 0 then sorted.drop delta.toNat else sorted

theorem sortSnaps_length (l : List Snapshot) : (sortSnaps l).length = l.length :=
  List.length_insertionSort byStart l

theorem sortSnaps_sorted (l : List Snapshot) : (sortSnaps l).Sorted byStart :=
  List.sorted_insertionSort byStart l

theorem selectForDeletion_eq (keep : Int) (dl : List Snapshot) :
    selectForDeletion keep dl =
      if ((sortSnaps dl).length : Int) - keep > 0 then
        (sortSnaps dl).take (((sortSnaps dl).length : Int) - keep).toNat
      else [] := rfl

theorem remainingAfter_eq (keep : Int) (dl : List Snapshot) :
    remainingAfter keep dl =
      if ((sortSnaps dl).length : Int) - keep > 0 then
        (sortSnaps dl).drop (((sortSnaps dl).length : Int) - keep).toNat
      else sortSnaps dl := rfl

theorem retention_core (keep : Int) (dl : List Snapshot) (h : 0 ≤ keep) :
    (selectForDeletion keep dl).length = dl.length - keep.toNat
    ∧ (remainingAfter keep dl).length = min dl.length keep.toNat
    ∧ (selectForDeletion keep dl).Sorted byStart
    ∧ (∀ a ∈ selectForDeletion keep dl, ∀ b ∈ remainingAfter keep dl,
        a.start_time ≤ b.start_time)
    ∧ selectForDeletion keep (remainingAfter keep dl) = [] := by
  have hlen : (sortSnaps dl).length = dl.length := sortSnaps_length dl
  rw [selectForDeletion_eq, remainingAfter_eq]
  by_cases hd : ((sortSnaps dl).length : Int) - keep > 0
  · simp only [if_pos hd]
    have htk : ((sortSnaps dl).take ((((sortSnaps dl).length : Int) - keep).toNat)).length
        = (((sortSnaps dl).length : Int) - keep).toNat := by
      rw [List.length_take]
      omega
    have hdr : ((sortSnaps dl).drop ((((sortSnaps dl).length : Int) - keep).toNat)).length
        = (sortSnaps dl).length - (((sortSnaps dl).length : Int) - keep).toNat :=
      List.length_drop _ _
    refine ⟨by omega, by omega,
      (sortSnaps_sorted dl).sublist (List.take_sublist _ _), ?_, ?_⟩
    · intro a ha b hb
      have hp : List.Pairwise byStart
          ((sortSnaps dl).take ((((sortSnaps dl).length : Int) - keep).toNat)
            ++ (sortSnaps dl).drop ((((sortSnaps dl).length : Int) - keep).toNat)) := by
        rw [List.take_append_drop]
        exact sortSnaps_sorted dl
      exact (List.pairwise_append.mp hp).2.2 a ha b hb
    · rw [selectForDeletion_eq]
      have hno : ¬ (((sortSnaps ((sortSnaps dl).drop
          ((((sortSnaps dl).length : Int) - keep).toNat))).length : Int) - keep > 0) := by
        rw [sortSnaps_length, hdr]
        omega
      rw [if_neg hno]
  · simp only [if_neg hd]
    refine ⟨by simp; omega, by omega, List.sorted_nil, by intro a ha; simp at ha, ?_⟩
    rw [selectForDeletion_eq]
    have hno : ¬ (((sortSnaps (sortSnaps dl)).length : Int) - keep > 0) := by
      rw [sortSnaps_length]
      omega
    rw [if_neg hno]

theorem mem_remainingAfter (keep : Int) (dl : List Snapshot) (b : Snapshot)
    (hb : b ∈ remainingAfter keep dl) : b ∈ dl := by
  have hperm : (sortSnaps dl).Perm dl := List.perm_insertionSort byStart dl
  rw [remainingAfter_eq] at hb
  by_cases hd : ((sortSnaps dl).length : Int) - keep > 0
  · rw [if_pos hd] at hb
    exact hperm.mem_iff.mp (List.mem_of_mem_drop hb)
  · rw [if_neg hd] at hb
    exact hperm.mem_iff.mp hb

/-- C1: for every keep-count `k ≥ 0` and deletelist of `n` period-matching
snapshots, the deletion set is exactly the `max(n - k, 0)` oldest ones in
ascending timestamp order, the remaining matching snapshots number exactly
`min(n, k)`, and re-running selection on the post-deletion set — with or
without re-running the period classification — returns the empty list. -/
theorem retention_selection (keep : Int) (dl : List Snapshot) (h : 0 ≤ keep) :
    (selectForDeletion keep dl).length = dl.length - keep.toNat
    ∧ (remainingAfter keep dl).length = min dl.length keep.toNat
    ∧ (selectForDeletion keep dl).Sorted byStart
    ∧ (∀ a ∈ selectForDeletion keep dl, ∀ b ∈ remainingAfter keep dl,
        a.start_time ≤ b.start_time)
    ∧ selectForDeletion keep (remainingAfter keep dl) = []
    ∧ (∀ period snaps, dl = buildDeletelist period snaps →
        selectForDeletion keep (buildDeletelist period (remainingAfter keep dl)) = []) := by
  obtain ⟨h1, h2, h3, h4, h5⟩ := retention_core keep dl h
  refine ⟨h1, h2, h3, h4, h5, ?_⟩
  intro period snaps hdl
  have hfix : buildDeletelist period (remainingAfter keep dl) = remainingAfter keep dl := by
    unfold buildDeletelist
    apply List.filter_eq_self.mpr
    intro b hb
    have hbdl : b ∈ dl := mem_remainingAfter keep dl b hb
    rw [hdl] at hbdl
    exact (List.mem_filter.mp hbdl).2
  rw [hfix]
  exact h5

/-- Fixed sample deletelist used to instantiate hypotheses of the retention
theorems on concrete data. -/
def demoSnaps : List Snapshot :=
  [⟨"snap-a", "daily snapshot for vol-1 taken by the snapshot script at t5", 5⟩,
   ⟨"snap-b", "daily snapshot for vol-1 taken by the snapshot script at t3", 3⟩,
   ⟨"snap-c", "daily snapshot for vol-1 taken by the snapshot script at t8", 8⟩]

/-- Concrete instantiation of `retention_selection` at keep = 1 on a
three-element deletelist. -/
theorem retention_selection_witness :
    (selectForDeletion 1 demoSnaps).length = demoSnaps.length - (1 : Int).toNat :=
  (retention_selection 1 demoSnaps (by decide)).1

theorem classifyAdds_eq_or (period desc : String) :
    classifyAdds period desc =
      ((strStartsWith "hour" desc && (period == "hour"))
       || (strStartsWith "week" desc && (period == "week"))
       || (strStartsWith "day" desc || (strStartsWith "daily" desc && (period == "day")))
       || (strStartsWith "month" desc && (period == "month"))) := by
  unfold classifyAdds
  split_ifs with h1 h2 h3 h4 <;> simp_all

/-- C2 counterexample: under a week run the description "weekly backup" is
classified as a deletion candidate although it does not contain the
"taken by the snapshot script" marker, so a description lacking the marker
can match a period. -/
theorem marker_never_checked_counterexample :
    strContains marker "weekly backup" = false
    ∧ classifyAdds "week" "weekly backup" = true := by decide

/-- C2 amended: classification never consults the marker substring. A
snapshot is a deletion candidate for the selected period iff its description
starts with "hour"/"week"/"month" and the period is that token, or starts
with "daily" and the period is day, or starts with the bare legacy prefix
"day" (in which case it matches every period). -/
theorem classification_ignores_marker (period desc : String) :
    classifyAdds period desc = true ↔
      ((strStartsWith "hour" desc = true ∧ period = "hour")
       ∨ (strStartsWith "week" desc = true ∧ period = "week")
       ∨ strStartsWith "day" desc = true
       ∨ (strStartsWith "daily" desc = true ∧ period = "day")
       ∨ (strStartsWith "month" desc = true ∧ period = "month")) := by
  rw [classifyAdds_eq_or]
  simp only [Bool.or_eq_true, Bool.and_eq_true, beq_iff_eq]
  tauto

/-- Legacy-format description beginning with the bare period token "day",
as produced by script versions that predate the frequency-label convention. -/
def legacyDayDesc : String :=
  "day snapshot for vol-123 taken by the snapshot script at 01-01-2014 00:00:00"

/-- C3: evaluation at the failing input. Because the `or` in the day branch
binds loosely, a description starting with the bare prefix "day" is
classified as a deletion candidate under every period, including hour, week
and month; the current-format "daily ..." description, by contrast, is
correctly excluded outside day runs. -/
theorem day_branch_precedence_bug :
    classifyAdds "hour" legacyDayDesc = true
    ∧ classifyAdds "week" legacyDayDesc = true
    ∧ classifyAdds "month" legacyDayDesc = true
    ∧ classifyAdds "week" (makeDescription "day" "vol-123" "01-01-2014 00:00:00") = false := by
  decide

/-- Per-volume environment: the volume id plus the outcomes of the provider
API calls made while the volume is processed. A `true` failure flag means
the corresponding boto call raises an exception. -/
structure VolEnv where
  volId : String
  tagsFail : Bool
  createFail : Bool
  tagSnapFail : Bool
  listSnapsFail : Bool
  snaps : List Snapshot
  deleteFails : String → Bool

/-- Observable outcome of one iteration of the volume loop body
(lines 139-199): which steps ran, the counter deltas it contributes, whether
the outer except clause caught an exception (`raised`), whether the try body
ran to its end so that the else clause runs (`completed`), and the
informational line logged when the retention key is absent. -/
structure VolResult where
  createAttempted : Bool
  tagMirrorAttempted : Bool
  createdDelta : Nat
  deletedDelta : Nat
  raised : Bool
  completed : Bool
  skipLog : Option String
deriving DecidableEq, Repr

/-- The deletion loop (lines 186-189): snapshots are deleted in list order,
`total_deleted` incremented after each successful delete; the first failing
delete raises out of the loop. Returns the number deleted and whether an
exception escaped. -/
def runDeletes (fails : String → Bool) : List Snapshot → Nat × Bool
  | [] => (0, false)
  | s :: rest =>
    if fails s.snapId then (0, true)
    else
      let r := runDeletes fails rest
      (r.1 + 1, r.2)

/-- One iteration of the volume loop (lines 139-199), translated statement
by statement. `keep` is `config.get('keep_' + args.period)` (line 175):
`none` when the key is absent, in which case the informational skip line
(line 178, with Python's `%`-before-`+` precedence) is logged and `continue`
is taken, bypassing both the deletion loop and the try statement's else
clause. The inner try (lines 149-155) catches a failure of creation or of
tag mirroring, so neither makes the volume raise. -/
def processVolume (period : String) (keep : Option Int) (v : VolEnv) : VolResult :=
  if v.tagsFail then
    { createAttempted := false, tagMirrorAttempted := false, createdDelta := 0,
      deletedDelta := 0, raised := true, completed := false, skipLog := none }
  else
    let tagMirrorAttempted := !v.createFail
    let createdDelta : Nat := if !v.createFail && !v.tagSnapFail then 1 else 0
    if v.listSnapsFail then
      { createAttempted := true, tagMirrorAttempted, createdDelta,
        deletedDelta := 0, raised := true, completed := false, skipLog := none }
    else
      match keep with
      | none =>
        { createAttempted := true, tagMirrorAttempted, createdDelta,
          deletedDelta := 0, raised := false, completed := false,
          skipLog := some ("No retention policy found in the config for keep_, skipping"
            ++ period) }
      | some k =>
        let todelete := selectForDeletion k (buildDeletelist period v.snaps)
        let del := runDeletes v.deleteFails todelete
        { createAttempted := true, tagMirrorAttempted, createdDelta,
          deletedDelta := del.1, raised := del.2, completed := !del.2, skipLog := none }

/-- Aggregate run state (lines 48-58). -/
structure RunCounters where
  count_total : Nat
  count_success : Nat
  count_errors : Nat
  total_created : Nat
  total_deleted : Nat
  sns_err_msg : String
deriving DecidableEq, Repr

def initCounters : RunCounters := ⟨0, 0, 0, 0, 0, ""⟩

/-- Effect of one volume on the run state: `count_total` increments as the
first statement of the try body (line 141), the except clause appends the
error line and bumps `count_errors` (lines 193-197), and the else clause
bumps `count_success` (line 199). -/
def stepVolume (period : String) (keep : Option Int) (c : RunCounters) (v : VolEnv) :
    RunCounters :=
  let r := processVolume period keep v
  { count_total := c.count_total + 1
    count_success := c.count_success + (if r.completed then 1 else 0)
    count_errors := c.count_errors + (if r.raised then 1 else 0)
    total_created := c.total_created + r.createdDelta
    total_deleted := c.total_deleted + r.deletedDelta
    sns_err_msg := c.sns_err_msg ++
      (if r.raised then "Error in processing volume with id: " ++ v.volId ++ "\n" else "") }

/-- The volume loop over the listing returned by get_all_volumes. -/
def runLoop (period : String) (keep : Option Int) (vols : List VolEnv) : RunCounters :=
  vols.foldl (stepVolume period keep) initCounters

/-- The argparse choices for the positional period argument (line 40):
`('hour', 'day', 'week', 'month')`. -/
def validPeriods : List String := ["hour", "day", "week", "month"]

/-- The whole script run. Argparse (lines 35-42) rejects a period outside
`validPeriods` with a usage error, exiting the interpreter with status 2
before any connection is made. `listing` is the result of get_all_volumes
(line 137): `none` means the call raised; that exception is uncaught, so the
interpreter aborts with status 1. Otherwise the loop runs, the epilogue
(lines 201-219) builds the report — and, containing no exit call, the script
falls off the end and the process exits with status 0 whatever the counters
say. -/
def scriptRun (period : String) (listing : Option (List VolEnv)) (keep : Option Int) :
    Option RunCounters × Nat :=
  if validPeriods.contains period then
    match listing with
    | some vols => (some (runLoop period keep vols), 0)
    | none => (none, 1)
  else (none, 2)

/-- A volume whose provider calls all succeed and which has no snapshots. -/
def cleanVol (i : String) : VolEnv :=
  ⟨i, false, false, false, false, [], fun _ => false⟩

/-- A volume whose `vol.snapshots()` call raises. -/
def failVol (i : String) : VolEnv :=
  ⟨i, false, false, false, true, [], fun _ => false⟩

theorem isSubstring_iff (sub : List Char) :
    ∀ l : List Char, isSubstring sub l = true ↔ sub <:+: l := by
  intro l
  induction l with
  | nil =>
    simp [isSubstring, List.isEmpty_iff]
  | cons c rest ih =>
    simp only [isSubstring, Bool.or_eq_true, List.isPrefixOf_iff_prefix, ih,
      List.infix_cons_iff]

theorem strContains_append (pre sub post : String) :
    strContains sub (pre ++ sub ++ post) = true := by
  unfold strContains
  rw [isSubstring_iff]
  rw [String.data_append, String.data_append]
  exact List.infix_append _ _ _

theorem completed_imp_not_raised (p : String) (k : Option Int) (v : VolEnv)
    (h : (processVolume p k v).completed = true) :
    (processVolume p k v).raised = false := by
  rcases v with ⟨i, tf, cf, tsf, lsf, sn, df⟩
  cases tf <;> cases lsf <;> cases k <;> simp_all [processVolume]

theorem raised_imp_not_completed (p : String) (k : Option Int) (v : VolEnv)
    (h : (processVolume p k v).raised = true) :
    (processVolume p k v).completed = false := by
  rcases v with ⟨i, tf, cf, tsf, lsf, sn, df⟩
  cases tf <;> cases lsf <;> cases k <;> simp_all [processVolume]

theorem completed_imp_createAttempted (p : String) (k : Option Int) (v : VolEnv)
    (h : (processVolume p k v).completed = true) :
    (processVolume p k v).createAttempted = true := by
  rcases v with ⟨i, tf, cf, tsf, lsf, sn, df⟩
  cases tf <;> cases lsf <;> cases k <;> simp_all [processVolume]

/-- C4: per-volume failure isolation. With three listed volumes of which the
second raises and the first and third complete cleanly, the run ends with
count_total = 3, count_success = 2, count_errors = 1, the error buffer is
exactly the line naming the second volume's id (and hence contains that id),
and snapshot creation was attempted for the first and third volumes. -/
theorem volume_failure_isolation (p : String) (k : Option Int) (v1 v2 v3 : VolEnv)
    (h1 : (processVolume p k v1).completed = true)
    (h2 : (processVolume p k v2).raised = true)
    (h3 : (processVolume p k v3).completed = true) :
    (runLoop p k [v1, v2, v3]).count_total = 3
    ∧ (runLoop p k [v1, v2, v3]).count_success = 2
    ∧ (runLoop p k [v1, v2, v3]).count_errors = 1
    ∧ (runLoop p k [v1, v2, v3]).sns_err_msg
        = "Error in processing volume with id: " ++ v2.volId ++ "\n"
    ∧ strContains v2.volId (runLoop p k [v1, v2, v3]).sns_err_msg = true
    ∧ (processVolume p k v1).createAttempted = true
    ∧ (processVolume p k v3).createAttempted = true := by
  have e1 := completed_imp_not_raised p k v1 h1
  have e3 := completed_imp_not_raised p k v3 h3
  have e2 := raised_imp_not_completed p k v2 h2
  have hmsg : (runLoop p k [v1, v2, v3]).sns_err_msg
      = "Error in processing volume with id: " ++ v2.volId ++ "\n" := by
    simp [runLoop, stepVolume, initCounters, h2, e1, e3, String.empty_append]
  refine ⟨?_, ?_, ?_, hmsg, ?_, completed_imp_createAttempted p k v1 h1,
    completed_imp_createAttempted p k v3 h3⟩
  · simp [runLoop, stepVolume, initCounters]
  · simp [runLoop, stepVolume, initCounters, h1, h3, e2]
  · simp [runLoop, stepVolume, initCounters, h2, e1, e3]
  · rw [hmsg]
    exact strContains_append "Error in processing volume with id: " v2.volId "\n"

/-- Concrete instantiation of `volume_failure_isolation`: a clean volume, a
volume whose snapshot-listing call raises, and another clean volume. -/
theorem volume_failure_isolation_witness :
    (runLoop "day" (some 7) [cleanVol "vol-1", failVol "vol-2", cleanVol "vol-3"]).count_success
      = 2 :=
  (volume_failure_isolation "day" (some 7) (cleanVol "vol-1") (failVol "vol-2")
    (cleanVol "vol-3") (by decide) (by decide) (by decide)).2.1

/-- C5 counterexample: a run in which a per-volume error occurred still
exits with status 0, and a run that matched zero volumes also exits with
status 0 and records no error — refuting the claimed non-zero exits. -/
theorem exit_status_counterexample :
    (scriptRun "day" (some [failVol "vol-2"]) (some 7)).2 = 0
    ∧ ((scriptRun "day" (some [failVol "vol-2"]) (some 7)).1.map RunCounters.count_errors)
        = some 1
    ∧ (scriptRun "day" (some []) (some 7)).2 = 0
    ∧ ((scriptRun "day" (some []) (some 7)).1.map RunCounters.count_errors) = some 0 := by
  decide

/-- C5 amended: the script has no exit-status handling after startup.
Whenever the volume listing succeeds the run completes and the process exits
with status 0, regardless of per-volume errors and even when zero volumes
matched; a non-zero exit happens only when the volume listing itself raises
(uncaught exception, status 1) or the period token is invalid (usage error,
status 2). -/
theorem exit_status_amended (period : String) (keep : Option Int)
    (hp : validPeriods.contains period = true) :
    (∀ vols, (scriptRun period (some vols) keep).2 = 0)
    ∧ (scriptRun period none keep).2 = 1 := by
  have hm : period ∈ validPeriods := by simpa using hp
  constructor
  · intro vols
    simp [scriptRun, hm]
  · simp [scriptRun, hm]

/-- Concrete instantiation of `exit_status_amended`: the failing-volume run
of the counterexample indeed exits with status 0. -/
theorem exit_status_amended_witness :
    (scriptRun "day" (some [failVol "vol-2"]) (some 7)).2 = 0 :=
  (exit_status_amended "day" (some 7) (by decide)).1 [failVol "vol-2"]

/-- C6: when the keep_<period> configuration key is absent, no snapshot is
ever deleted — each volume's deletion delta is zero, the run's total_deleted
stays zero for any volume list, and a volume that reaches the retention
lookup logs the informational skip line before `continue`. -/
theorem unset_retention_no_deletion (p : String) (v : VolEnv) (vols : List VolEnv)
    (h : (processVolume p none v).raised = false) :
    (processVolume p none v).deletedDelta = 0
    ∧ (runLoop p none vols).total_deleted = 0
    ∧ (processVolume p none v).skipLog
        = some ("No retention policy found in the config for keep_, skipping" ++ p) := by
  have hdel : ∀ w : VolEnv, (processVolume p none w).deletedDelta = 0 := by
    intro w
    rcases w with ⟨i, tf, cf, tsf, lsf, sn, df⟩
    cases tf <;> cases lsf <;> simp [processVolume]
  have hloop : ∀ (l : List VolEnv) (c : RunCounters),
      (l.foldl (stepVolume p none) c).total_deleted = c.total_deleted := by
    intro l
    induction l with
    | nil => intro c; rfl
    | cons w rest ih =>
      intro c
      rw [List.foldl_cons, ih]
      simp [stepVolume, hdel w]
  refine ⟨hdel v, hloop vols initCounters, ?_⟩
  rcases v with ⟨i, tf, cf, tsf, lsf, sn, df⟩
  cases tf <;> cases lsf <;> simp [processVolume] at h ⊢

/-- Concrete instantiation of `unset_retention_no_deletion` on a clean
volume in a week run. -/
theorem unset_retention_no_deletion_witness :
    (processVolume "week" none (cleanVol "vol-1")).skipLog
      = some ("No retention policy found in the config for keep_, skipping" ++ "week") :=
  (unset_retention_no_deletion "week" (cleanVol "vol-1") [] (by decide)).2.2

theorem runDeletes_all_ok (fails : String → Bool) (l : List Snapshot)
    (h : ∀ s, fails s = false) : runDeletes fails l = (l.length, false) := by
  induction l with
  | nil => rfl
  | cons s rest ih =>
    simp [runDeletes, h s.snapId, ih]

/-- C7: when snapshot creation raises, the inner handler catches it: tag
mirroring onto the missing snapshot is skipped, nothing is counted created,
the volume neither raises nor is marked failed, and its existing snapshots
are still classified and pruned under the retention policy exactly as after
a successful creation. -/
theorem creation_failure_continues (p : String) (k : Int) (v : VolEnv)
    (hc : v.createFail = true) (ht : v.tagsFail = false) (hl : v.listSnapsFail = false)
    (hd : ∀ s, v.deleteFails s = false) :
    (processVolume p (some k) v).tagMirrorAttempted = false
    ∧ (processVolume p (some k) v).createdDelta = 0
    ∧ (processVolume p (some k) v).raised = false
    ∧ (processVolume p (some k) v).completed = true
    ∧ (processVolume p (some k) v).deletedDelta
        = (selectForDeletion k (buildDeletelist p v.snaps)).length := by
  rcases v with ⟨i, tf, cf, tsf, lsf, sn, df⟩
  simp only at hc ht hl hd
  subst hc ht hl
  simp [processVolume, runDeletes_all_ok df _ hd]

/-- A volume carrying one current-format daily snapshot whose creation call
raises. -/
def createFailVol : VolEnv :=
  ⟨"vol-9", false, true, false, false,
    [⟨"snap-old", makeDescription "day" "vol-9" "01-01-2014 00:00:00", 1⟩],
    fun _ => false⟩

/-- Concrete instantiation of `creation_failure_continues`: with keep = 0,
the volume whose creation failed still deletes its one old daily snapshot. -/
theorem creation_failure_continues_witness :
    (processVolume "day" (some 0) createFailVol).deletedDelta
      = (selectForDeletion 0 (buildDeletelist "day" createFailVol.snaps)).length :=
  (creation_failure_continues "day" 0 createFailVol rfl rfl rfl (fun _ => rfl)).2.2.2.2

/-- C8 counterexample: "four_hours" is not among the argparse choices — the
script rejects it with a usage error and exit status 2, refuting the claim
that the accepted set includes it. -/
theorem four_hours_rejected_counterexample :
    validPeriods.contains "four_hours" = false
    ∧ (scriptRun "four_hours" (some [cleanVol "vol-1"]) (some 7)).2 = 2 := by
  decide

/-- C8 amended: the accepted period tokens are exactly hour, day, week and
month; every other token (including "four_hours") is rejected with a usage
error and exit status 2, uniformly in the volume listing — that is, before
any provider call is consulted. -/
theorem cli_period_validation (period : String) :
    (validPeriods.contains period = true ↔
      (period = "hour" ∨ period = "day" ∨ period = "week" ∨ period = "month"))
    ∧ (validPeriods.contains period = false →
        ∀ listing keep, scriptRun period listing keep = (none, 2)) := by
  constructor
  · simp [validPeriods, List.contains_cons]
  · intro hp listing keep
    have hm : period ∉ validPeriods := by simpa using hp
    simp [scriptRun, hm]

/-- Concrete instantiation of `cli_period_validation`: the token
"four_hours" yields the usage-error outcome whatever listing is offered. -/
theorem cli_period_validation_witness :
    scriptRun "four_hours" (some [cleanVol "vol-1"]) (some 7) = (none, 2) :=
  (cli_period_validation "four_hours").2 (by decide) (some [cleanVol "vol-1"]) (some 7)

/-- C10: a volume processed without any exception while keep_<period> is
absent takes the `continue`, which bypasses the try statement's else
clause: it is counted in count_total but in neither count_success nor
count_errors, so count_total strictly exceeds count_success + count_errors
although no error occurred. -/
theorem keep_unset_counter_gap (p : String) (v : VolEnv)
    (h : (processVolume p none v).raised = false) :
    (runLoop p none [v]).count_total = 1
    ∧ (runLoop p none [v]).count_success = 0
    ∧ (runLoop p none [v]).count_errors = 0
    ∧ (runLoop p none [v]).count_success + (runLoop p none [v]).count_errors
        < (runLoop p none [v]).count_total := by
  have hcomp : (processVolume p none v).completed = false := by
    rcases v with ⟨i, tf, cf, tsf, lsf, sn, df⟩
    cases tf <;> cases lsf <;> simp [processVolume]
  refine ⟨rfl, ?_, ?_, ?_⟩ <;>
    simp [runLoop, stepVolume, initCounters, hcomp, h]

/-- Concrete instantiation of `keep_unset_counter_gap` on a clean volume. -/
theorem keep_unset_counter_gap_witness :
    (runLoop "week" none [cleanVol "vol-1"]).count_success
        + (runLoop "week" none [cleanVol "vol-1"]).count_errors
      < (runLoop "week" none [cleanVol "vol-1"]).count_total :=
  (keep_unset_counter_gap "week" (cleanVol "vol-1") (by decide)).2.2.2

/-- Tag mappings as association lists of string keys and values. -/
abbrev Tags := List (String × String)

/-- get_resource_tags (lines 115-123): reads the provider's tag list for a
resource into a mapping, dropping every key with the reserved "aws:"
prefix; a falsy (empty) resource id yields the empty mapping. -/
def get_resource_tags (resource_id : String) (providerTags : Tags) : Tags :=
  if resource_id.isEmpty then []
  else providerTags.filter (fun t => !(strStartsWith "aws:" t.1))

/-- Local effect of boto's `resource.add_tag` (line 133) on the resource's
tag mapping: overwrite the value when the key is present, else append. -/
def addTag : Tags → String → String → Tags
  | [], k, v => [(k, v)]
  | (k1, v1) :: rest, k, v =>
    if k1 == k then (k1, v) :: rest else (k1, v1) :: addTag rest k v

/-- The guard on line 127: `tag_key not in resource.tags or
resource.tags[tag_key] != tag_value`. -/
def shouldApply (targetTags : Tags) (k v : String) : Bool :=
  match targetTags.lookup k with
  | none => true
  | some v1 => v1 != v

/-- set_resource_tags (lines 125-133): for each pair of the source mapping
in order, apply it to the resource when the resource lacks the key or holds
a different value (the guard on line 127); each applied pair is logged and
`resource.add_tag` updates the resource's mapping. Returns the applied
pairs in iteration order together with the final tag mapping. -/
def set_resource_tags : Tags → Tags → Tags × Tags
  | [], target => ([], target)
  | (k, v) :: rest, target =>
    if shouldApply target k v then
      let r := set_resource_tags rest (addTag target k v)
      ((k, v) :: r.1, r.2)
    else
      set_resource_tags rest target

theorem lookup_addTag_self (t : Tags) (k v : String) :
    (addTag t k v).lookup k = some v := by
  induction t with
  | nil =>
    simp [addTag, List.lookup]
  | cons p rest ih =>
    rcases p with ⟨k1, v1⟩
    by_cases h : k1 = k
    · subst h
      simp [addTag, List.lookup]
    · have hb : (k1 == k) = false := beq_eq_false_iff_ne.mpr h
      have hb2 : (k == k1) = false := beq_eq_false_iff_ne.mpr (Ne.symm h)
      simp [addTag, hb, List.lookup, hb2, ih]

theorem lookup_addTag_ne (t : Tags) (k k1 v : String) (h : k1 ≠ k) :
    (addTag t k v).lookup k1 = t.lookup k1 := by
  have hb : (k1 == k) = false := beq_eq_false_iff_ne.mpr h
  induction t with
  | nil =>
    simp [addTag, List.lookup, hb]
  | cons p rest ih =>
    rcases p with ⟨k2, v2⟩
    by_cases h2 : k2 = k
    · subst h2
      simp [addTag, List.lookup, hb]
    · have hb2 : (k2 == k) = false := beq_eq_false_iff_ne.mpr h2
      cases hc : (k1 == k2) <;> simp [addTag, List.lookup, hb2, hc, ih]

theorem isSome_lookup_addTag (t : Tags) (k v k1 : String)
    (h : (t.lookup k1).isSome = true) : ((addTag t k v).lookup k1).isSome = true := by
  by_cases hk : k1 = k
  · subst hk
    rw [lookup_addTag_self]
    rfl
  · rw [lookup_addTag_ne t k k1 v hk]
    exact h

theorem shouldApply_iff (t : Tags) (k v : String) :
    shouldApply t k v = true ↔ ¬ t.lookup k = some v := by
  unfold shouldApply
  cases h : t.lookup k with
  | none => simp
  | some v1 => simp [bne_iff_ne]

theorem applied_cons_pos (k v : String) (rest target : Tags)
    (h : shouldApply target k v = true) :
    (set_resource_tags ((k, v) :: rest) target).1
      = (k, v) :: (set_resource_tags rest (addTag target k v)).1 := by
  simp [set_resource_tags, h]

theorem target_cons_pos (k v : String) (rest target : Tags)
    (h : shouldApply target k v = true) :
    (set_resource_tags ((k, v) :: rest) target).2
      = (set_resource_tags rest (addTag target k v)).2 := by
  simp [set_resource_tags, h]

theorem set_resource_tags_cons_neg (k v : String) (rest target : Tags)
    (h : ¬ shouldApply target k v = true) :
    set_resource_tags ((k, v) :: rest) target = set_resource_tags rest target := by
  simp [set_resource_tags, h]

theorem set_resource_tags_applied_subset (src : Tags) :
    ∀ tgt kv, kv ∈ (set_resource_tags src tgt).1 → kv ∈ src := by
  induction src with
  | nil =>
    intro tgt kv h
    simp [set_resource_tags] at h
  | cons s rest ih =>
    rcases s with ⟨sk, sv⟩
    intro tgt kv h
    by_cases hs : shouldApply tgt sk sv = true
    · rw [applied_cons_pos sk sv rest tgt hs] at h
      rcases List.mem_cons.mp h with h1 | h2
      · exact List.mem_cons.mpr (Or.inl h1)
      · exact List.mem_cons_of_mem _ (ih _ kv h2)
    · rw [set_resource_tags_cons_neg sk sv rest tgt hs] at h
      exact List.mem_cons_of_mem _ (ih tgt kv h)

theorem set_resource_tags_lookup_preserved (src : Tags) (k : String) :
    ∀ tgt, k ∉ src.map Prod.fst →
      ((set_resource_tags src tgt).2).lookup k = tgt.lookup k := by
  induction src with
  | nil =>
    intro tgt _
    rfl
  | cons s rest ih =>
    rcases s with ⟨sk, sv⟩
    intro tgt hk
    simp only [List.map_cons, List.mem_cons] at hk
    push_neg at hk
    by_cases hs : shouldApply tgt sk sv = true
    · rw [target_cons_pos sk sv rest tgt hs, ih _ hk.2]
      exact lookup_addTag_ne tgt sk k sv hk.1
    · rw [set_resource_tags_cons_neg sk sv rest tgt hs]
      exact ih tgt hk.2

theorem set_resource_tags_keeps_keys (src : Tags) :
    ∀ (tgt : Tags) (k : String), (tgt.lookup k).isSome = true →
      (((set_resource_tags src tgt).2).lookup k).isSome = true := by
  induction src with
  | nil =>
    intro tgt k h
    exact h
  | cons s rest ih =>
    rcases s with ⟨sk, sv⟩
    intro tgt k h
    by_cases hs : shouldApply tgt sk sv = true
    · rw [target_cons_pos sk sv rest tgt hs]
      exact ih _ k (isSome_lookup_addTag tgt sk sv k h)
    · rw [set_resource_tags_cons_neg sk sv rest tgt hs]
      exact ih tgt k h

theorem mem_set_resource_tags_applied (k v : String) (src : Tags) :
    ∀ tgt : Tags, (src.map Prod.fst).Nodup → (k, v) ∈ src →
      ((k, v) ∈ (set_resource_tags src tgt).1 ↔ ¬ tgt.lookup k = some v) := by
  induction src with
  | nil =>
    intro tgt _ hmem
    exact absurd hmem (List.not_mem_nil _)
  | cons s rest ih =>
    rcases s with ⟨sk, sv⟩
    intro tgt hnd hmem
    simp only [List.map_cons, List.nodup_cons] at hnd
    rcases List.mem_cons.mp hmem with heq | hrest
    · -- the processed pair is the head, so its key occurs in no later pair
      have hk : k = sk := congrArg Prod.fst heq
      have hv : v = sv := congrArg Prod.snd heq
      subst hk
      subst hv
      have hnotinrest : (k, v) ∉ rest := fun hin =>
        hnd.1 (List.mem_map.mpr ⟨(k, v), hin, rfl⟩)
      by_cases hs : shouldApply tgt k v = true
      · rw [applied_cons_pos k v rest tgt hs]
        exact iff_of_true (List.mem_cons_self _ _) ((shouldApply_iff tgt k v).mp hs)
      · rw [set_resource_tags_cons_neg k v rest tgt hs]
        have hlookup : tgt.lookup k = some v := by
          by_contra hne
          exact hs ((shouldApply_iff tgt k v).mpr hne)
        refine iff_of_false ?_ (not_not_intro hlookup)
        intro hmm
        exact hnotinrest (set_resource_tags_applied_subset rest tgt _ hmm)
    · -- the pair sits in the tail; the head's key differs from k
      have hkmem : k ∈ rest.map Prod.fst := List.mem_map.mpr ⟨(k, v), hrest, rfl⟩
      have hkne : k ≠ sk := fun h => hnd.1 (h ▸ hkmem)
      by_cases hs : shouldApply tgt sk sv = true
      · rw [applied_cons_pos sk sv rest tgt hs]
        have hlook : (addTag tgt sk sv).lookup k = tgt.lookup k :=
          lookup_addTag_ne tgt sk k sv hkne
        have hih := ih (addTag tgt sk sv) hnd.2 hrest
        rw [hlook] at hih
        constructor
        · intro hmm
          rcases List.mem_cons.mp hmm with h1 | h2
          · exact absurd (congrArg Prod.fst h1) hkne
          · exact hih.mp h2
        · intro hne
          exact List.mem_cons_of_mem _ (hih.mpr hne)
      · rw [set_resource_tags_cons_neg sk sv rest tgt hs]
        exact ih tgt hnd.2 hrest

/-- C9: a source pair is applied to the target iff the target lacks the key
or holds a different value for it; keys absent from the source keep their
target value unchanged and no target key is ever removed; every pair
applied comes from the source; and get_resource_tags drops every
"aws:"-prefixed key at the read boundary, so reserved keys are never
mirrored. -/
theorem tag_mirroring (source target : Tags)
    (hnd : (source.map Prod.fst).Nodup) :
    (∀ k v, (k, v) ∈ source →
      ((k, v) ∈ (set_resource_tags source target).1 ↔ ¬ target.lookup k = some v))
    ∧ (∀ k, k ∉ source.map Prod.fst →
        ((set_resource_tags source target).2).lookup k = target.lookup k)
    ∧ (∀ k, (target.lookup k).isSome = true →
        (((set_resource_tags source target).2).lookup k).isSome = true)
    ∧ (∀ kv ∈ (set_resource_tags source target).1, kv ∈ source)
    ∧ (∀ rid ptags kv, kv ∈ get_resource_tags rid ptags →
        strStartsWith "aws:" kv.1 = false) := by
  refine ⟨?_, ?_, ?_, ?_, ?_⟩
  · intro k v hmem
    exact mem_set_resource_tags_applied k v source target hnd hmem
  · intro k hk
    exact set_resource_tags_lookup_preserved source k target hk
  · intro k hk
    exact set_resource_tags_keeps_keys source target k hk
  · intro kv hkv
    exact set_resource_tags_applied_subset source target kv hkv
  · intro rid ptags kv hkv
    unfold get_resource_tags at hkv
    by_cases hr : rid.isEmpty = true
    · simp [hr] at hkv
    · rw [if_neg hr] at hkv
      have := List.of_mem_filter hkv
      simpa using this


/-- Sample source mapping as read from a volume. -/
def demoSource : Tags := [("Name", "data-disk"), ("env", "prod")]

/-- Sample target mapping already present on the snapshot. -/
def demoTarget : Tags := [("env", "dev"), ("keep", "yes")]

/-- Concrete instantiation of `tag_mirroring`: the pair ("Name",
"data-disk") is applied exactly because the target lacks the key. -/
theorem tag_mirroring_witness :
    ("Name", "data-disk") ∈ (set_resource_tags demoSource demoTarget).1 ↔
      ¬ demoTarget.lookup "Name" = some "data-disk" :=
  (tag_mirroring demoSource demoTarget (by decide)).1 "Name" "data-disk" (by decide)

end MakeSnapshots
